import Mathlib

/-!
Verification of the BookNest recommendation client (`src/App.tsx`).

The development shallowly embeds the component's logic:
* JavaScript strings appearing in filtering logic are modelled as their
  lists of character codes (`List Nat`), so that `toLowerCase` and
  `includes` become executable functions on code lists.
* The `description` field of a detail payload may be a plain string or a
  `\x7bvalue: s\x7d` wrapper object; the type `DescField` covers both shapes.
* The component state (`useState` hooks) is the structure `AppState`;
  each event handler is a pure state transformer.
* A run of `fetchBooks` is split into its synchronous prologue
  (`fetchBooksStart`, lines 33-34 of the source) and the continuation that
  runs once the search request settles (`fetchBooksFinish`); the network
  is abstracted as a `SearchOutcome`: either the search call fails, or it
  returns a list of docs together with, for each work key, the settled
  result of that work's detail request.
* The order-insensitivity of `Promise.all` is modelled explicitly by
  `promiseAll`, which fills a slot array following an arbitrary
  completion order of the detail requests.
-/

namespace BookNest

/-- A description value as it can sit in a JSON field: either a plain
string or a wrapper object carrying a `value` string. -/
inductive DescField where
  | str (s : String)
  | wrapped (value : String)
deriving DecidableEq, Repr

/-- The `Book` record of `App.tsx` (search summary, also the shape of an
enriched item). Optional fields of the TypeScript interface are `Option`s. -/
structure Book where
  key : String
  title : String
  author_name : List String
  first_publish_year : Nat
  cover_i : Option Nat := none
  number_of_pages_median : Option Nat := none
  description : Option DescField := none
deriving DecidableEq, Repr

/-- The fields of a detail response (`https://openlibrary.org/<key>.json`)
that `fetchBooks` reads. -/
structure DetailData where
  number_of_pages : Option Nat := none
  description : Option DescField := none
deriving DecidableEq, Repr

/-- The sentinel used when no usable description is present. -/
def noDescription : String := "No description available."

/-- Embedding of line 45 of the source,
`detailsResponse.data.description?.value || detailsResponse.data.description || 'No description available.'`,
with JavaScript truthiness: an empty string is falsy, an object is truthy. -/
def normalizeDescription (d : Option DescField) : DescField :=
  match d with
  | none => .str noDescription
  | some (.str s) => if s = "" then .str noDescription else .str s
  | some (.wrapped v) => if v = "" then .wrapped v else .str v

/-- Embedding of the body of the `fetchedBooks.map` callback (lines 39-51):
on a successful detail response the summary is spread and its page-count and
description fields are overwritten; on a failed detail request the summary
is returned unchanged. -/
def enrichBook (book : Book) (detail : Except Unit DetailData) : Book :=
  match detail with
  | .error _ => book
  | .ok d =>
    { book with
      number_of_pages_median := d.number_of_pages,
      description := some (normalizeDescription d.description) }

/-- Enrich one summary using the settled detail result for its work key. -/
def enrichOne (details : String → Except Unit DetailData) (book : Book) : Book :=
  enrichBook book (details book.key)

/-- The component state: one field per `useState` hook of `App.tsx`. -/
structure AppState where
  genre : String
  year : String
  books : List Book
  loading : Bool
  error : Option String
  genreSuggestions : List String
  yearSuggestions : List Nat
  selectedBook : Option Book
deriving DecidableEq, Repr

/-- The settled outcome of one run's network activity: the search request
either fails, or succeeds with a docs list and, per work key, the settled
outcome of that key's detail request. -/
inductive SearchOutcome where
  | failure
  | success (docs : List Book) (details : String → Except Unit DetailData)

/-- The generic message of line 55 of the source. -/
def errMsg : String := "An error occurred while fetching books. Please try again."

/-- Synchronous prologue of `fetchBooks` (lines 33-34): set the loading
flag and clear the error before any request is issued. -/
def fetchBooksStart (s : AppState) : AppState :=
  { s with loading := true, error := none }

/-- Continuation of `fetchBooks` once the search request settles
(lines 35-57): on success publish the enriched first ten docs, on failure
set the generic error; either way clear the loading flag at the end. -/
def fetchBooksFinish (s : AppState) (o : SearchOutcome) : AppState :=
  match o with
  | .failure => { s with error := some errMsg, loading := false }
  | .success docs details =>
    { s with books := (docs.take 10).map (enrichOne details), loading := false }

/-- A whole run of `fetchBooks` under a settled network outcome. -/
def fetchBooks (s : AppState) (o : SearchOutcome) : AppState :=
  fetchBooksFinish (fetchBooksStart s) o

/-- UTF-16 code units of a JavaScript string, as a list of naturals. -/
def codes (s : String) : List Nat := s.data.map Char.toNat

/-- ASCII model of `String.prototype.toLowerCase` on one code unit:
uppercase letters are shifted down into lowercase, everything else is
unchanged. -/
def lowerCode (n : Nat) : Nat := if 65 ≤ n ∧ n ≤ 90 then n + 32 else n

/-- `toLowerCase` on a whole code list. -/
def lowerCodes (l : List Nat) : List Nat := l.map lowerCode

/-- Does `s` start with `sub`, code unit by code unit. -/
def listStartsWith : List Nat → List Nat → Bool
  | _, [] => true
  | [], _ :: _ => false
  | a :: s, b :: t => a == b && listStartsWith s t

/-- Model of `String.prototype.includes`: `sub` occurs contiguously in `s`. -/
def jsIncludes (s sub : List Nat) : Bool :=
  match s with
  | [] => listStartsWith [] sub
  | _ :: s2 => listStartsWith s sub || jsIncludes s2 sub

/-- Fuel-indexed decimal digits of a natural number, most significant
first (the fuel is always sufficient when it exceeds the number). -/
def natToCharsAux : Nat → Nat → List Char
  | 0, _ => []
  | fuel + 1, n =>
    if n < 10 then [Nat.digitChar n]
    else natToCharsAux fuel (n / 10) ++ [Nat.digitChar (n % 10)]

/-- Decimal digit characters of a natural number, modelling JavaScript
`Number.prototype.toString` on a nonnegative integer. -/
def natToChars (n : Nat) : List Char := natToCharsAux (n + 1) n

/-- Decimal string of a natural number. -/
def natToString (n : Nat) : String := String.mk (natToChars n)

/-- The curated genre candidates (lines 14-17 of the source). -/
def popularGenres : List String :=
  ["Fiction", "Fantasy", "Science Fiction", "Mystery", "Thriller", "Romance",
   "Historical Fiction", "Non-fiction", "Biography", "Self-help", "Horror"]

/-- The ten most recent calendar years, newest first (line 20), as a
function of the year read from the clock at load time. -/
def recentYears (currentYear : Nat) : List Nat :=
  (List.range 10).map (fun i => currentYear - i)

/-- Case-insensitive substring containment of `text` in `cand`, the
predicate the genre filter of line 70 computes:
`cand.toLowerCase().includes(text.toLowerCase())`. -/
def ciContains (cand text : String) : Bool :=
  jsIncludes (lowerCodes (codes cand)) (lowerCodes (codes text))

/-- Embedding of `handleGenreChange` (lines 66-75): set the genre field
and recompute the genre suggestions; an empty input (falsy) clears them. -/
def handleGenreChange (s : AppState) (value : String) : AppState :=
  { s with
    genre := value,
    genreSuggestions :=
      if value = "" then []
      else popularGenres.filter (fun g => ciContains g value) }

/-- Embedding of `handleYearChange` (lines 77-86): set the year field and
recompute the year suggestions by `y.toString().includes(value)` — note
the source applies no lowercasing here. -/
def handleYearChange (currentYear : Nat) (s : AppState) (value : String) : AppState :=
  { s with
    year := value,
    yearSuggestions :=
      if value = "" then []
      else (recentYears currentYear).filter
        (fun y => jsIncludes (codes (natToString y)) (codes value)) }

/-- Embedding of `selectGenre` (lines 88-91). -/
def selectGenre (s : AppState) (selectedGenre : String) : AppState :=
  { s with genre := selectedGenre, genreSuggestions := [] }

/-- Embedding of `selectYear` (lines 93-96). -/
def selectYear (s : AppState) (selectedYear : Nat) : AppState :=
  { s with year := natToString selectedYear, yearSuggestions := [] }

/-- Embedding of `handleBookClick` (lines 98-100): toggle the selection. -/
def handleBookClick (s : AppState) (book : Book) : AppState :=
  { s with selectedBook := if s.selectedBook = some book then none else some book }

/-- The user events that mutate component state. `submit` is the
"Get Recommendations" button (line 152). -/
inductive Event where
  | genreInput (value : String)
  | yearInput (value : String)
  | pickGenre (g : String)
  | pickYear (y : Nat)
  | bookClick (b : Book)
  | submit
deriving DecidableEq

/-- Synchronous state effect of one event. -/
def applyEvent (currentYear : Nat) (e : Event) (s : AppState) : AppState :=
  match e with
  | .genreInput v => handleGenreChange s v
  | .yearInput v => handleYearChange currentYear s v
  | .pickGenre g => selectGenre s g
  | .pickYear y => selectYear s y
  | .bookClick b => handleBookClick s b
  | .submit => s

/-- Whether the event causes a run of `fetchBooks`. The submit button
calls it unconditionally; for every other event the `useEffect` of
lines 60-64 re-runs exactly when its dependencies `[genre, year]`
changed, and its body fetches when both fields are non-empty (truthy). -/
def fetchTriggered (currentYear : Nat) (e : Event) (s : AppState) : Bool :=
  match e with
  | .submit => true
  | _ =>
    let s2 := applyEvent currentYear e s
    (s2.genre != s.genre || s2.year != s.year) && s2.genre != "" && s2.year != ""

/-- Mechanics of `Promise.all` over the detail fan-out (lines 39-51): a
slot array, one slot per summary, is filled as the individual promises
settle in an arbitrary completion order (a list of slot indices); each
settling promise writes its enriched book into its own slot. -/
def promiseAll (xs : List Book) (f : Book → Book) (order : List Nat) : List (Option Book) :=
  order.foldl (fun acc i => acc.set i (Option.map f xs[i]?)) (List.replicate xs.length none)

/-- A concrete enriched-summary fixture carrying a summary-level page
count, used to exercise the failure path of the enrichment. -/
def bookA : Book :=
  { key := "/works/OL1W", title := "Alpha", author_name := ["Ann"],
    first_publish_year := 2001, cover_i := some 7,
    number_of_pages_median := some 100, description := none }

/-- A second concrete summary fixture. -/
def bookB : Book :=
  { key := "/works/OL2W", title := "Beta", author_name := ["Bob"],
    first_publish_year := 2002, cover_i := none,
    number_of_pages_median := none, description := some (.str "old blurb") }

/-- The freshly mounted component state: all hooks at their initial
values (lines 23-30 of the source). -/
def state0 : AppState :=
  { genre := "", year := "", books := [], loading := false, error := none,
    genreSuggestions := [], yearSuggestions := [], selectedBook := none }

/-- A state in which an earlier successful fetch left a rendered list. -/
def statePre : AppState := { state0 with books := [bookA] }

/-- A state in which the user has already typed a genre. -/
def stateG : AppState := { state0 with genre := "Fiction" }

/-- A state in which `bookA` is the currently selected book. -/
def stateSel : AppState := { statePre with selectedBook := some bookA }

/-- A concrete settled detail table: the request for `bookA`'s key
succeeds without a page count, the one for `bookB`'s key succeeds with
one, and every other key fails. -/
def detailsAB : String → Except Unit DetailData := fun k =>
  if k = "/works/OL1W" then .ok { number_of_pages := none, description := some (.str "fresh") }
  else if k = "/works/OL2W" then .ok { number_of_pages := some 321, description := none }
  else .error ()

section PipelineLemmas

variable {α : Type}

/-- Each slot of the fold holds the value written for its own index as
soon as that index has occurred in the completion order, and the initial
content otherwise. -/
lemma foldl_set_getElem? (order : List Nat) (v : Nat → α) (init : List α) (j : Nat) :
    (order.foldl (fun acc i => acc.set i (v i)) init)[j]? =
      if j ∈ order ∧ j < init.length then some (v j) else init[j]? := by
  induction order generalizing init with
  | nil => simp
  | cons i rest ih =>
    rw [List.foldl_cons, ih, List.length_set]
    by_cases hr : j ∈ rest ∧ j < init.length
    · rw [if_pos hr, if_pos ⟨List.mem_cons_of_mem i hr.1, hr.2⟩]
    · rw [if_neg hr, List.getElem?_set]
      by_cases hij : i = j
      · subst hij
        by_cases hlen : i < init.length
        · rw [if_pos rfl, if_pos hlen, if_pos ⟨List.mem_cons_self i rest, hlen⟩]
        · rw [if_pos rfl, if_neg hlen, if_neg (fun h => hlen h.2),
            List.getElem?_eq_none (by omega)]
      · rw [if_neg hij]
        have hno : ¬ (j ∈ i :: rest ∧ j < init.length) := by
          intro h
          rcases List.mem_cons.1 h.1 with h1 | h1
          · exact hij h1.symm
          · exact hr ⟨h1, h.2⟩
        rw [if_neg hno]

end PipelineLemmas

/-- However the detail promises are completed — any completion order that
settles each slot exactly the indices `0, …, n-1` — the joined array is
the enrichment map in the original summary order. -/
lemma promiseAll_perm (xs : List Book) (f : Book → Book) (order : List Nat)
    (h : order.Perm (List.range xs.length)) :
    promiseAll xs f order = xs.map (fun b => some (f b)) := by
  apply List.ext_getElem?
  intro j
  unfold promiseAll
  rw [foldl_set_getElem?, List.length_replicate]
  by_cases hj : j < xs.length
  · have hmem : j ∈ order := h.mem_iff.2 (List.mem_range.2 hj)
    rw [if_pos ⟨hmem, hj⟩, List.getElem?_map, List.getElem?_eq_getElem hj]
    rfl
  · rw [if_neg (fun hh => hj hh.2), List.getElem?_replicate, if_neg hj,
      List.getElem?_map, List.getElem?_eq_none (by omega)]
    rfl

/-- Enrichment never touches the work key. -/
lemma enrichBook_key (b : Book) (r : Except Unit DetailData) :
    (enrichBook b r).key = b.key := by
  cases r <;> rfl

/-- C1: a successful run consumes at most the first 10 docs of the search
response, and the published enriched list is exactly the enrichment of
those docs in the server-provided order; joining the detail promises in
any completion order yields that same list, so the order in which the
detail requests complete is irrelevant; the published list has at most
10 items. -/
theorem pipeline_take10_order_stable (s : AppState) (docs : List Book)
    (details : String → Except Unit DetailData) (order : List Nat)
    (hord : order.Perm (List.range (docs.take 10).length)) :
    (fetchBooks s (.success docs details)).books = (docs.take 10).map (enrichOne details) ∧
    promiseAll (docs.take 10) (enrichOne details) order
      = ((fetchBooks s (.success docs details)).books).map some ∧
    (fetchBooks s (.success docs details)).books.map Book.key = (docs.take 10).map Book.key ∧
    (fetchBooks s (.success docs details)).books
      = (fetchBooks s (.success (docs.take 10) details)).books ∧
    (fetchBooks s (.success docs details)).books.length ≤ 10 := by
  refine ⟨rfl, ?_, ?_, ?_, ?_⟩
  · rw [promiseAll_perm _ _ _ hord]
    show _ = ((docs.take 10).map (enrichOne details)).map some
    rw [List.map_map]
    rfl
  · show ((docs.take 10).map (enrichOne details)).map Book.key = _
    rw [List.map_map]
    apply List.map_congr_left
    intro b _
    exact enrichBook_key b (details b.key)
  · show ((docs.take 10).map (enrichOne details)) = ((docs.take 10).take 10).map (enrichOne details)
    rw [List.take_take]
    norm_num
  · show ((docs.take 10).map (enrichOne details)).length ≤ 10
    rw [List.length_map, List.length_take]
    omega

/-- Witness for C1 at a concrete two-doc response joined in reversed
completion order (the second detail request settles first). -/
theorem pipeline_take10_order_stable_instance :
    ([1, 0] : List Nat).Perm (List.range ([bookA, bookB].take 10).length) ∧
    promiseAll ([bookA, bookB].take 10) (enrichOne detailsAB) [1, 0]
      = ((fetchBooks state0 (.success [bookA, bookB] detailsAB)).books).map some := by
  have hr : List.range ([bookA, bookB].take 10).length = [0, 1] := by decide
  have hp : ([1, 0] : List Nat).Perm (List.range ([bookA, bookB].take 10).length) := by
    rw [hr]
    exact List.Perm.swap 0 1 []
  exact ⟨hp, (pipeline_take10_order_stable state0 [bookA, bookB] detailsAB [1, 0] hp).2.1⟩

/-- C2 counterexample: the claim says an item whose detail request failed
ends up missing its page-count field, but the code returns the summary
object unchanged, so a summary-provided `number_of_pages_median` (here
100) survives the failed enrichment instead of being missing. -/
theorem failed_detail_keeps_summary_pages :
    (fetchBooks state0 (.success [bookA] (fun _ => .error ()))).books = [bookA] ∧
    (fetchBooks state0 (.success [bookA] (fun _ => .error ()))).books.map
      Book.number_of_pages_median = [some 100] ∧
    [some (100 : Nat)] ≠ [(none : Option Nat)] := by
  decide

/-- C2 amended: when the search succeeds, the run reports success (no
error) with one output item per consumed doc, and every item whose
detail request failed is published exactly equal to its search summary —
all summary fields (title, authors, first-publish year, and any
summary-provided page count or description) preserved unchanged, with
nothing merged in. -/
theorem partial_enrichment_returns_summary (s : AppState) (docs : List Book)
    (details : String → Except Unit DetailData) :
    (fetchBooks s (.success docs details)).error = none ∧
    (fetchBooks s (.success docs details)).books.length = (docs.take 10).length ∧
    ∀ (i : Nat) (b : Book), (docs.take 10)[i]? = some b → details b.key = .error () →
      (fetchBooks s (.success docs details)).books[i]? = some b := by
  refine ⟨rfl, ?_, ?_⟩
  · show ((docs.take 10).map (enrichOne details)).length = _
    rw [List.length_map]
  · intro i b hib hfail
    show ((docs.take 10).map (enrichOne details))[i]? = some b
    rw [List.getElem?_map, hib]
    simp [enrichOne, hfail, enrichBook]

/-- Witness for the amended C2 at a one-doc response whose single detail
request fails. -/
theorem partial_enrichment_returns_summary_instance :
    (([bookA].take 10)[0]? = some bookA) ∧
    ((fun _ => (.error () : Except Unit DetailData)) bookA.key = .error ()) ∧
    (fetchBooks state0 (.success [bookA] (fun _ => .error ()))).books[0]? = some bookA :=
  ⟨rfl, rfl,
    (partial_enrichment_returns_summary state0 [bookA] (fun _ => .error ())).2.2
      0 bookA rfl rfl⟩

/-- C3 counterexample: the claim says any plain string `s` is preserved
by the normalization, but an empty plain string is falsy in JavaScript,
so `"" || … ` falls through to the sentinel instead of keeping `""`. -/
theorem empty_description_not_preserved :
    normalizeDescription (some (.str "")) = .str noDescription ∧
    normalizeDescription (some (.str "")) ≠ .str "" := by
  decide

/-- C3 amended: for every non-empty string `s`, a plain-string
description `s` and a wrapped description with value `s` both normalize
to the plain string `s`, and an absent description normalizes to the
fixed sentinel. (An empty plain string normalizes to the sentinel, and
an empty wrapped value leaks the wrapper object.) -/
theorem description_normalization_nonempty (s : String) (h : s ≠ "") :
    normalizeDescription (some (.str s)) = .str s ∧
    normalizeDescription (some (.wrapped s)) = .str s ∧
    normalizeDescription none = .str noDescription := by
  refine ⟨?_, ?_, rfl⟩ <;> simp [normalizeDescription, h]

/-- Witness for the amended C3 at the concrete payload string "text". -/
theorem description_normalization_nonempty_instance :
    ("text" : String) ≠ "" ∧
    normalizeDescription (some (.str "text")) = .str "text" ∧
    normalizeDescription (some (.wrapped "text")) = .str "text" ∧
    normalizeDescription none = .str noDescription := by
  have h : ("text" : String) ≠ "" := by decide
  obtain ⟨a, b, c⟩ := description_normalization_nonempty "text" h
  exact ⟨h, a, b, c⟩

/-- C4: when the search request fails, the run ends with the single
generic error message, the previously rendered book list untouched, the
selection untouched, and the loading flag cleared. -/
theorem search_failure_generic_error_books_unchanged (s : AppState) :
    (fetchBooks s .failure).error = some errMsg ∧
    errMsg = "An error occurred while fetching books. Please try again." ∧
    (fetchBooks s .failure).books = s.books ∧
    (fetchBooks s .failure).selectedBook = s.selectedBook ∧
    (fetchBooks s .failure).loading = false :=
  ⟨rfl, rfl, rfl, rfl, rfl⟩

/-- C5 counterexample: after a failed fetch that follows an earlier
successful one, a non-empty result list and an error message are present
simultaneously, contradicting "never both simultaneously". -/
theorem error_and_stale_list_coexist :
    (fetchBooks statePre .failure).books ≠ [] ∧
    (fetchBooks statePre .failure).error ≠ none := by
  decide

/-- C5 amended: every run, success or failure, ends with the loading
flag cleared; a successful run ends with a list of at most 10 items and
no error; a failing run ends with the generic error while the previous
list stays in place — so the error and a previously populated list may
be visible at the same time. -/
theorem fetch_terminal_states (s : AppState) (docs : List Book)
    (details : String → Except Unit DetailData) :
    (fetchBooks s .failure).loading = false ∧
    (fetchBooks s (.success docs details)).loading = false ∧
    (fetchBooks s (.success docs details)).books.length ≤ 10 ∧
    (fetchBooks s (.success docs details)).error = none ∧
    (fetchBooks s .failure).error = some errMsg ∧
    (fetchBooks s .failure).books = s.books := by
  refine ⟨rfl, rfl, ?_, rfl, rfl, rfl⟩
  show ((docs.take 10).map (enrichOne details)).length ≤ 10
  rw [List.length_map, List.length_take]
  omega

/-- C6 counterexample: toggling the same book twice does not always end
unselected — starting from a state where the book is already selected,
two clicks deselect and then reselect it. -/
theorem double_toggle_selected_stays_selected :
    (handleBookClick (handleBookClick stateSel bookA) bookA).selectedBook = some bookA ∧
    some bookA ≠ (none : Option Book) := by
  decide

/-- C6 amended: a click deselects the clicked book when it is currently
selected and selects it otherwise (in particular a click while a
different book is selected swaps the selection directly, with no
intermediate deselect); toggling the same book twice returns to the
unselected state whenever the book was not already selected to begin
with. The `Option`-typed selection field makes "at most one book is
selected at any time" hold by construction. -/
theorem toggle_selection_behavior (s : AppState) (b : Book) :
    ((s.selectedBook = some b → (handleBookClick s b).selectedBook = none) ∧
     (s.selectedBook ≠ some b → (handleBookClick s b).selectedBook = some b ∧
        (handleBookClick (handleBookClick s b) b).selectedBook = none)) := by
  constructor
  · intro h
    simp [handleBookClick, h]
  · intro h
    refine ⟨?_, ?_⟩ <;> simp [handleBookClick, h]

/-- Witness for the amended C6: from the freshly mounted (unselected)
state, one click selects and a second click deselects. -/
theorem toggle_selection_behavior_instance :
    state0.selectedBook ≠ some bookA ∧
    (handleBookClick state0 bookA).selectedBook = some bookA ∧
    (handleBookClick (handleBookClick state0 bookA) bookA).selectedBook = none := by
  have h : state0.selectedBook ≠ some bookA := by decide
  obtain ⟨h1, h2⟩ := (toggle_selection_behavior state0 bookA).2 h
  exact ⟨h, h1, h2⟩

/-- C9: a successful detail merge overwrites the page-count field with
the detail payload's `number_of_pages` unconditionally; when that field
is absent, the enriched item's page count becomes absent even if the
search summary carried a `number_of_pages_median`. -/
theorem merge_overwrites_page_count (b : Book) (d : DetailData) :
    (enrichBook b (.ok d)).number_of_pages_median = d.number_of_pages ∧
    (d.number_of_pages = none → (enrichBook b (.ok d)).number_of_pages_median = none) :=
  ⟨rfl, fun h => by simp [enrichBook, h]⟩

/-- Witness for C9: `bookA` arrives with a summary page count of 100 and
a successful detail response without `number_of_pages` erases it. -/
theorem merge_overwrites_page_count_instance :
    bookA.number_of_pages_median = some 100 ∧
    ({ number_of_pages := none, description := none } : DetailData).number_of_pages = none ∧
    (enrichBook bookA
        (.ok { number_of_pages := none, description := none })).number_of_pages_median = none :=
  ⟨rfl, rfl,
    (merge_overwrites_page_count bookA { number_of_pages := none, description := none }).2 rfl⟩

/-- C10: every run clears the error to `none` in its synchronous
prologue, before any request resolves (so a previously displayed error
disappears as soon as a new fetch begins, whatever it was), and after a
successful run the error is still `none`. -/
theorem fetch_clears_error_at_start (s : AppState) (docs : List Book)
    (details : String → Except Unit DetailData) :
    (fetchBooksStart s).error = none ∧
    (fetchBooksStart s).loading = true ∧
    (fetchBooks s (.success docs details)).error = none :=
  ⟨rfl, rfl, rfl⟩

/-- Decimal digit characters have codes between 48 and 57. -/
lemma digitChar_code (n : Nat) (h : n < 10) :
    48 ≤ (Nat.digitChar n).toNat ∧ (Nat.digitChar n).toNat ≤ 57 := by
  interval_cases n <;> decide

/-- Every character produced by the decimal printer is a digit. -/
lemma natToCharsAux_digits (fuel n : Nat) :
    ∀ c ∈ natToCharsAux fuel n, 48 ≤ c.toNat ∧ c.toNat ≤ 57 := by
  induction fuel generalizing n with
  | zero =>
    intro c hc
    simp [natToCharsAux] at hc
  | succ fuel ih =>
    intro c hc
    unfold natToCharsAux at hc
    by_cases h : n < 10
    · rw [if_pos h] at hc
      simp only [List.mem_singleton] at hc
      subst hc
      exact digitChar_code n h
    · rw [if_neg h] at hc
      rcases List.mem_append.1 hc with h1 | h1
      · exact ih (n / 10) c h1
      · simp only [List.mem_singleton] at h1
        subst h1
        exact digitChar_code (n % 10) (Nat.mod_lt n (by omega))

/-- The code units of the decimal string of a natural are digit codes. -/
lemma codes_natToString_digits (n : Nat) :
    ∀ d ∈ codes (natToString n), 48 ≤ d ∧ d ≤ 57 := by
  intro d hd
  unfold codes natToString at hd
  simp only [List.mem_map] at hd
  obtain ⟨c, hc, rfl⟩ := hd
  exact natToCharsAux_digits _ _ c hc

/-- Lowercasing fixes a digit code. -/
lemma lowerCode_digit (d : Nat) (h : 48 ≤ d ∧ d ≤ 57) : lowerCode d = d := by
  unfold lowerCode
  rw [if_neg]
  omega

/-- Lowercasing fixes a list of digit codes. -/
lemma lowerCodes_digits (ds : List Nat) (h : ∀ d ∈ ds, 48 ≤ d ∧ d ≤ 57) :
    lowerCodes ds = ds := by
  unfold lowerCodes
  induction ds with
  | nil => rfl
  | cons d ds ih =>
    rw [List.map_cons, lowerCode_digit d (h d (List.mem_cons_self d ds)),
      ih (fun x hx => h x (List.mem_cons_of_mem d hx))]

/-- Against a haystack of digit codes, lowercasing the needle does not
change whether the haystack starts with it: a digit is fixed by
lowercasing, and neither an uppercase letter nor its lowercased image can
equal a digit. -/
lemma listStartsWith_lower (ds t : List Nat) (h : ∀ d ∈ ds, 48 ≤ d ∧ d ≤ 57) :
    listStartsWith ds (lowerCodes t) = listStartsWith ds t := by
  induction t generalizing ds with
  | nil => rfl
  | cons b t ih =>
    cases ds with
    | nil => rfl
    | cons a ds =>
      have ha := h a (List.mem_cons_self a ds)
      show (a == lowerCode b && listStartsWith ds (lowerCodes t))
          = (a == b && listStartsWith ds t)
      rw [ih ds (fun d hd => h d (List.mem_cons_of_mem a hd))]
      congr 1
      unfold lowerCode
      by_cases hb : 65 ≤ b ∧ b ≤ 90
      · rw [if_pos hb]
        have h1 : (a == b + 32) = false := by
          simp only [beq_eq_false_iff_ne, ne_eq]
          omega
        have h2 : (a == b) = false := by
          simp only [beq_eq_false_iff_ne, ne_eq]
          omega
        rw [h1, h2]
      · rw [if_neg hb]

/-- Against a haystack of digit codes, lowercasing the needle does not
change containment. -/
lemma jsIncludes_lower (ds t : List Nat) (h : ∀ d ∈ ds, 48 ≤ d ∧ d ≤ 57) :
    jsIncludes ds (lowerCodes t) = jsIncludes ds t := by
  induction ds with
  | nil =>
    show listStartsWith [] (lowerCodes t) = listStartsWith [] t
    cases t <;> rfl
  | cons a ds ih =>
    show (listStartsWith (a :: ds) (lowerCodes t) || jsIncludes ds (lowerCodes t))
        = (listStartsWith (a :: ds) t || jsIncludes ds t)
    rw [listStartsWith_lower _ _ h, ih (fun d hd => h d (List.mem_cons_of_mem a hd))]

/-- `listStartsWith` decides the existence of a tail decomposition. -/
lemma listStartsWith_iff (s t : List Nat) :
    listStartsWith s t = true ↔ ∃ r, s = t ++ r := by
  induction t generalizing s with
  | nil =>
    constructor
    · intro _
      exact ⟨s, rfl⟩
    · intro _
      cases s <;> rfl
  | cons b t ih =>
    cases s with
    | nil =>
      constructor
      · intro h
        simp [listStartsWith] at h
      · rintro ⟨r, hr⟩
        simp at hr
    | cons a s =>
      show (a == b && listStartsWith s t) = true ↔ _
      rw [Bool.and_eq_true, beq_iff_eq, ih]
      constructor
      · rintro ⟨rfl, r, rfl⟩
        exact ⟨r, rfl⟩
      · rintro ⟨r, hr⟩
        injection hr with h1 h2
        exact ⟨h1, r, h2⟩

/-- `jsIncludes` decides contiguous-substring occurrence: the searched
string splits as some prefix, the needle, and some suffix. -/
lemma jsIncludes_iff (s sub : List Nat) :
    jsIncludes s sub = true ↔ ∃ l r, s = l ++ sub ++ r := by
  induction s with
  | nil =>
    show listStartsWith [] sub = true ↔ _
    cases sub with
    | nil =>
      constructor
      · intro _
        exact ⟨[], [], rfl⟩
      · intro _
        rfl
    | cons b t =>
      constructor
      · intro h
        simp [listStartsWith] at h
      · rintro ⟨l, r, hr⟩
        simp at hr
  | cons a s ih =>
    show (listStartsWith (a :: s) sub || jsIncludes s sub) = true ↔ _
    rw [Bool.or_eq_true, listStartsWith_iff, ih]
    constructor
    · rintro (⟨r, hr⟩ | ⟨l, r, hr⟩)
      · exact ⟨[], r, by simp [hr]⟩
      · exact ⟨a :: l, r, by simp [hr]⟩
    · rintro ⟨l, r, hr⟩
      cases l with
      | nil =>
        left
        exact ⟨r, by simpa using hr⟩
      | cons x l =>
        right
        injection hr with h1 h2
        subst h1
        exact ⟨l, r, h2⟩

/-- The year filter of line 81, which compares without lowercasing, is
extensionally the case-insensitive containment the spec describes,
because the candidate year strings consist of digit codes only. -/
lemma year_filter_case_insensitive (y : Nat) (v : String) :
    jsIncludes (codes (natToString y)) (codes v) = ciContains (natToString y) v := by
  unfold ciContains
  rw [lowerCodes_digits _ (codes_natToString_digits y),
    jsIncludes_lower _ _ (codes_natToString_digits y)]

/-- C7: `setGenre`/`setYear` store the typed text verbatim; an empty
input clears the suggestion list; a non-empty input recomputes the
suggestions as exactly the candidates (curated genres, ten most recent
years) containing the text case-insensitively — for years this holds
even though the source compares without lowercasing, since year strings
are all digits; `ciContains` really is case-insensitive substring
occurrence; and selecting a suggestion stores exactly that suggestion's
value and clears that field's suggestion list. -/
theorem input_suggestions_case_insensitive (cy : Nat) (s : AppState) (v g : String) (y : Nat) :
    ((handleGenreChange s v).genre = v ∧ (handleYearChange cy s v).year = v) ∧
    (v = "" → (handleGenreChange s v).genreSuggestions = [] ∧
      (handleYearChange cy s v).yearSuggestions = []) ∧
    (v ≠ "" → (handleGenreChange s v).genreSuggestions
        = popularGenres.filter (fun g2 => ciContains g2 v) ∧
      (handleYearChange cy s v).yearSuggestions
        = (recentYears cy).filter (fun y2 => ciContains (natToString y2) v)) ∧
    (∀ a b : String, ciContains a b = true ↔
      ∃ l r, lowerCodes (codes a) = l ++ lowerCodes (codes b) ++ r) ∧
    ((selectGenre s g).genre = g ∧ (selectGenre s g).genreSuggestions = [] ∧
     (selectYear s y).year = natToString y ∧ (selectYear s y).yearSuggestions = []) := by
  refine ⟨⟨rfl, rfl⟩, ?_, ?_, ?_, ⟨rfl, rfl, rfl, rfl⟩⟩
  · intro h
    constructor
    · show (if v = "" then [] else popularGenres.filter fun g2 => ciContains g2 v) = []
      rw [if_pos h]
    · show (if v = "" then []
          else (recentYears cy).filter
            fun y2 => jsIncludes (codes (natToString y2)) (codes v)) = []
      rw [if_pos h]
  · intro h
    constructor
    · show (if v = "" then [] else popularGenres.filter fun g2 => ciContains g2 v) = _
      rw [if_neg h]
    · show (if v = "" then []
          else (recentYears cy).filter
            fun y2 => jsIncludes (codes (natToString y2)) (codes v)) = _
      rw [if_neg h]
      apply List.filter_congr
      intro y2 _
      exact year_filter_case_insensitive y2 v
  · intro a b
    exact jsIncludes_iff _ _

/-- Witness for C7: typing "fan" yields exactly the genre candidates
containing it case-insensitively, namely `["Fantasy"]`, and typing "202"
in the year box yields the five recent years containing "202". -/
theorem input_suggestions_case_insensitive_instance :
    ("fan" : String) ≠ "" ∧
    (handleGenreChange state0 "fan").genreSuggestions
      = popularGenres.filter (fun g2 => ciContains g2 "fan") ∧
    (handleGenreChange state0 "fan").genreSuggestions = ["Fantasy"] ∧
    (handleYearChange 2024 state0 "202").yearSuggestions
      = [2024, 2023, 2022, 2021, 2020] := by
  have h : ("fan" : String) ≠ "" := by decide
  refine ⟨h, ((input_suggestions_case_insensitive 2024 state0 "fan" "g" 5).2.2.1 h).1,
    ?_, ?_⟩ <;> decide

/-- The effect rule of lines 60-64 written as one boolean formula, valid
for every event except the submit button. -/
lemma trigger_formula (cy : Nat) (e : Event) (s : AppState) (hne : e ≠ Event.submit) :
    fetchTriggered cy e s =
      (((applyEvent cy e s).genre != s.genre || (applyEvent cy e s).year != s.year)
        && (applyEvent cy e s).genre != "" && (applyEvent cy e s).year != "") := by
  cases e <;> first | rfl | exact absurd rfl hne

/-- C8: any event that changes the genre or year field and leaves both
fields non-empty triggers a fetch through the `[genre, year]` effect
(selecting a suggestion included), and the submit button triggers one
unconditionally in every state. -/
theorem both_fields_nonempty_triggers_fetch (cy : Nat) (e : Event) (s : AppState)
    (hchange : (applyEvent cy e s).genre ≠ s.genre ∨ (applyEvent cy e s).year ≠ s.year)
    (hg : (applyEvent cy e s).genre ≠ "") (hy : (applyEvent cy e s).year ≠ "") :
    fetchTriggered cy e s = true ∧ ∀ s2 : AppState, fetchTriggered cy .submit s2 = true := by
  refine ⟨?_, fun _ => rfl⟩
  by_cases he : e = Event.submit
  · subst he
    rfl
  · rw [trigger_formula cy e s he]
    simp only [Bool.and_eq_true, Bool.or_eq_true, bne_iff_ne, ne_eq]
    exact ⟨⟨hchange, hg⟩, hy⟩

/-- Witness for C8: with a genre already typed, entering a year makes
both fields non-empty and triggers a fetch; the submit button triggers
one from the same state as well. -/
theorem both_fields_nonempty_triggers_fetch_instance :
    ((applyEvent 2024 (.yearInput "2024") stateG).genre ≠ stateG.genre ∨
      (applyEvent 2024 (.yearInput "2024") stateG).year ≠ stateG.year) ∧
    (applyEvent 2024 (.yearInput "2024") stateG).genre ≠ "" ∧
    (applyEvent 2024 (.yearInput "2024") stateG).year ≠ "" ∧
    fetchTriggered 2024 (.yearInput "2024") stateG = true ∧
    fetchTriggered 2024 .submit stateG = true := by
  have hchange : (applyEvent 2024 (.yearInput "2024") stateG).genre ≠ stateG.genre ∨
      (applyEvent 2024 (.yearInput "2024") stateG).year ≠ stateG.year := by
    right
    decide
  have hg : (applyEvent 2024 (.yearInput "2024") stateG).genre ≠ "" := by decide
  have hy : (applyEvent 2024 (.yearInput "2024") stateG).year ≠ "" := by decide
  obtain ⟨h1, h2⟩ := both_fields_nonempty_triggers_fetch 2024 (.yearInput "2024") stateG
    hchange hg hy
  exact ⟨hchange, hg, hy, h1, h2 stateG⟩

end BookNest
